import Mathlib

/-!
Shallow embedding of the faunadb-python client core: the typed value model
(Ref, SetRef, FaunaTime, FaunaDate), the tagged-JSON codec, the query
expression `match` constructor, the error taxonomy and the request
dispatcher `Client._execute`.  Only `faunadb/client.py` and
`tests/test_objects.py` are present in the source tree; the codec, object
model, query builder and error modules are modelled from the spec
(section references are to spec.md) and constrained by the tests.

Conventions: Python dicts are ordered association lists; Python numbers in
the claims are integers, so JSON numbers are modelled as `Int`; strings use
Lean `String`.
-/

namespace Fauna

/-- Wire-level JSON document: the output of the standard JSON parse and the
input to the standard JSON serializer.  Objects keep key order (Python dicts
are insertion-ordered). -/
inductive Json where
  | null : Json
  | bool (b : Bool) : Json
  | num (n : Int) : Json
  | str (s : String) : Json
  | arr (elems : List Json) : Json
  | obj (fields : List (String × Json)) : Json

/-- Look up a key in an ordered field list (first match, like Python dict). -/
def lookupField (k : String) : List (String × Json) → Option Json
  | [] => none
  | (k', v) :: rest => if k' = k then some v else lookupField k rest

/-- Escape one character for a JSON string literal (the claims only use
plain printable characters; quote and backslash are the relevant cases). -/
def escapeChar (c : Char) : List Char :=
  if c = '"' then ['\\', '"']
  else if c = '\\' then ['\\', '\\']
  else [c]

/-- Escape a full string for a JSON string literal. -/
def escapeString (s : String) : String :=
  ⟨s.data.flatMap escapeChar⟩

mutual

/-- Render a JSON document to text the way `json.dumps` with separators
`(",", ":")` does: no whitespace, keys in stored order. -/
def Json.render : Json → String
  | .null => "null"
  | .bool true => "true"
  | .bool false => "false"
  | .num n => toString n
  | .str s => "\"" ++ escapeString s ++ "\""
  | .arr elems => "[" ++ Json.renderList elems ++ "]"
  | .obj fields => "\x7b" ++ Json.renderFields fields ++ "\x7d"

/-- Render array elements joined by commas. -/
def Json.renderList : List Json → String
  | [] => ""
  | [x] => Json.render x
  | x :: y :: rest => Json.render x ++ "," ++ Json.renderList (y :: rest)

/-- Render object fields joined by commas. -/
def Json.renderFields : List (String × Json) → String
  | [] => ""
  | [(k, v)] => "\"" ++ escapeString k ++ "\":" ++ Json.render v
  | (k, v) :: f :: rest =>
      "\"" ++ escapeString k ++ "\":" ++ Json.render v ++ "," ++ Json.renderFields (f :: rest)

end

/-- Opening brace character (written by code point to keep string literals plain). -/
def braceOpen : Char := Char.ofNat 123

/-- Closing brace character. -/
def braceClose : Char := Char.ofNat 125

/-- JSON insignificant whitespace. -/
def isWs (c : Char) : Bool := c = ' ' || c = '\n' || c = '\t' || c = '\r'

/-- Drop leading whitespace. -/
def skipWs : List Char → List Char
  | [] => []
  | c :: cs => if isWs c then skipWs cs else c :: cs

/-- Decimal digit test on a character. -/
def isDig (c : Char) : Bool := '0' ≤ c && c ≤ '9'

/-- Numeric value of a decimal digit character. -/
def digVal (c : Char) : Nat := c.toNat - 48

/-- Read a run of digit characters, accumulating their value. -/
def readDigits : List Char → Nat → Nat × List Char
  | [], acc => (acc, [])
  | c :: cs, acc => if isDig c then readDigits cs (acc * 10 + digVal c) else (acc, c :: cs)

/-- Read the body of a JSON string after the opening quote, resolving the
escapes the claims exercise; returns the characters and the remainder after
the closing quote. -/
def parseStrChars : List Char → Option (List Char × List Char)
  | [] => none
  | c :: cs =>
    if c = '"' then some ([], cs)
    else if c = '\\' then
      match cs with
      | [] => none
      | e :: cs' =>
        match parseStrChars cs' with
        | some (acc, rest) =>
            let d := if e = 'n' then '\n' else if e = 't' then '\t' else e
            some (d :: acc, rest)
        | none => none
    else
      match parseStrChars cs with
      | some (acc, rest) => some (c :: acc, rest)
      | none => none

/-- Match an expected literal character sequence, returning the remainder. -/
def dropLit : List Char → List Char → Option (List Char)
  | [], cs => some cs
  | l :: ls, c :: cs => if c = l then dropLit ls cs else none
  | _ :: _, [] => none

mutual

/-- Standard JSON parse of one value (the `json.loads` collaborator; fueled
recursion, no floats — the payloads in this development are integral). -/
def parseVal : Nat → List Char → Option (Json × List Char)
  | 0, _ => none
  | fuel+1, cs0 =>
    match skipWs cs0 with
    | [] => none
    | c :: cs =>
      if c = braceOpen then
        match skipWs cs with
        | c' :: cs' =>
          if c' = braceClose then some (.obj [], cs')
          else parseFields fuel (c' :: cs') []
        | [] => none
      else if c = '[' then
        match skipWs cs with
        | c' :: cs' =>
          if c' = ']' then some (.arr [], cs')
          else parseElems fuel (c' :: cs') []
        | [] => none
      else if c = '"' then
        match parseStrChars cs with
        | some (sc, rest) => some (.str ⟨sc⟩, rest)
        | none => none
      else if c = 't' then (dropLit "rue".data cs).map (fun rest => (.bool true, rest))
      else if c = 'f' then (dropLit "alse".data cs).map (fun rest => (.bool false, rest))
      else if c = 'n' then (dropLit "ull".data cs).map (fun rest => (.null, rest))
      else if c = '-' then
        match cs with
        | d :: cs' =>
          if isDig d then
            let (n, rest) := readDigits cs' (digVal d)
            some (.num (-(n : Int)), rest)
          else none
        | [] => none
      else if isDig c then
        let (n, rest) := readDigits cs (digVal c)
        some (.num (n : Int), rest)
      else none

/-- Parse the elements of a JSON array after its first non-space character. -/
def parseElems : Nat → List Char → List Json → Option (Json × List Char)
  | 0, _, _ => none
  | fuel+1, cs, acc =>
    match parseVal fuel cs with
    | some (v, rest) =>
      match skipWs rest with
      | ',' :: rest' => parseElems fuel rest' (acc ++ [v])
      | c :: rest' => if c = ']' then some (.arr (acc ++ [v]), rest') else none
      | [] => none
    | none => none

/-- Parse the fields of a JSON object after its first non-space character. -/
def parseFields : Nat → List Char → List (String × Json) → Option (Json × List Char)
  | 0, _, _ => none
  | fuel+1, cs, acc =>
    match skipWs cs with
    | [] => none
    | c :: cs' =>
      if c = '"' then
        match parseStrChars cs' with
        | some (kc, rest) =>
          match skipWs rest with
          | c2 :: rest2 =>
            if c2 = ':' then
              match parseVal fuel rest2 with
              | some (v, rest3) =>
                match skipWs rest3 with
                | ',' :: rest4 => parseFields fuel rest4 (acc ++ [(⟨kc⟩, v)])
                | c3 :: rest4 =>
                  if c3 = braceClose then some (.obj (acc ++ [(⟨kc⟩, v)]), rest4)
                  else none
                | [] => none
              | none => none
            else none
          | [] => none
        | none => none
      else none

end

/-- Standard JSON parse of a whole document: one value, then only
whitespace to the end of input. -/
def parseJsonText (s : String) : Option Json :=
  match parseVal (2 * s.length + 4) s.data with
  | some (v, rest) => if skipWs rest = [] then some v else none
  | none => none

/-- Python-level error condition raised by the value model (the tests use
`assertRaises(ValueError, ...)`; the spec calls this the InvalidValue /
ValueError-class condition). -/
inductive PyErr where
  | valueError (msg : String)
deriving DecidableEq, Repr

/-- Modelled from the spec (§3 Reference, missing `faunadb/objects.py`): a
Reference stores its resolved path string — collection path segments and an
optional instance id joined by `/`; equality is structural on this string. -/
structure Ref where
  value : String
deriving DecidableEq, Repr

/-- Split a character list on `/` (the single-character split the
Reference path accessors use). -/
def splitOnSlash : List Char → List (List Char)
  | [] => [[]]
  | c :: rest =>
    let r := splitOnSlash rest
    if c = '/' then [] :: r
    else
      match r with
      | [] => [[c]]
      | g :: gs => (c :: g) :: gs

/-- Join strings with the `/` separator. -/
def joinSlash : List String → String
  | [] => ""
  | [s] => s
  | s :: rest => s ++ "/" ++ joinSlash rest

/-- Modelled from the spec (§4.1): the Reference constructor applied to
string segments joins them with `/` (`Ref("classes", "frogs", "123")`). -/
def Ref.ofParts (first : String) (rest : List String) : Ref :=
  ⟨joinSlash (first :: rest)⟩

/-- Modelled from the spec (§4.1 edge case): a Reference whose collection is
itself a Reference resolves the parent to its path segment before joining
(`Ref(keys, "123")`). -/
def Ref.child (parent : Ref) (i : String) : Ref :=
  ⟨parent.value ++ "/" ++ i⟩

/-- Modelled from the spec (§4.1/§4.3): segments are read from the right —
the last segment is the instance id unless the path has a single segment,
which names only a collection. -/
def Ref.parts (r : Ref) : List String :=
  (splitOnSlash r.value.data).map (fun g => ⟨g⟩)

/-- Modelled from the spec (§4.1): `to_class()` strips the instance id and
is the identity on a collection-only Reference. -/
def Ref.to_class (r : Ref) : Ref :=
  if r.parts.length = 1 then r
  else ⟨joinSlash r.parts.dropLast⟩

/-- Modelled from the spec (§4.1) and the test (`assertRaises(ValueError,
keys.id)`): `id()` fails on a collection-only Reference, else returns the
last segment. -/
def Ref.id (r : Ref) : Except PyErr String :=
  if r.parts.length = 1 then .error (.valueError "Ref does not have an id.")
  else .ok (r.parts.getLastD "")

/-- Host-language instant (Python `datetime`) as the codec sees it: civil
clock fields plus an awareness flag.  Aware instants are modelled in UTC —
offset normalization to UTC belongs to the host datetime library, outside
the codec. -/
structure DateTime where
  year : Nat
  month : Nat
  day : Nat
  hour : Nat
  minute : Nat
  second : Nat
  microsecond : Nat
  aware : Bool
deriving DecidableEq, Repr

/-- Field ranges Python's `datetime` guarantees. -/
def DateTime.Valid (dt : DateTime) : Prop :=
  1 ≤ dt.year ∧ dt.year ≤ 9999 ∧ 1 ≤ dt.month ∧ dt.month ≤ 12 ∧
  1 ≤ dt.day ∧ dt.day ≤ 31 ∧ dt.hour ≤ 23 ∧ dt.minute ≤ 59 ∧
  dt.second ≤ 59 ∧ dt.microsecond < 1000000

instance (dt : DateTime) : Decidable dt.Valid := by
  unfold DateTime.Valid; infer_instance

/-- Decimal digit character of `d` (for `d < 10`). -/
def digChar (d : Nat) : Char := Char.ofNat (48 + d)

/-- Big-endian decimal digit characters of `v`, zero-padded to width `w`. -/
def padChars : Nat → Nat → List Char
  | 0, _ => []
  | w+1, v => padChars w (v / 10) ++ [digChar (v % 10)]

/-- Strip trailing decimal zeros from a `w`-digit fraction, keeping at least
one digit: returns the reduced value and its digit count. -/
def stripZeros : Nat → Nat → Nat × Nat
  | v, 0 => (v, 0)
  | v, 1 => (v, 1)
  | v, w+2 => if v % 10 = 0 then stripZeros (v / 10) (w+1) else (v, w+2)

/-- Fractional-second characters: empty on an exact second, else a dot and
the microsecond digits with trailing zeros trimmed (spec §4.2: fractional
seconds trimmed to the needed precision). -/
def fracChars (micro : Nat) : List Char :=
  if micro = 0 then []
  else
    let p := stripZeros micro 6
    '.' :: padChars p.2 p.1

/-- ISO-8601 rendering of an instant with the UTC designator `Z`
(spec §4.2 / §6 Timestamp string). -/
def isoFormatChars (dt : DateTime) : List Char :=
  padChars 4 dt.year ++ '-' :: padChars 2 dt.month ++ '-' :: padChars 2 dt.day ++
  'T' :: padChars 2 dt.hour ++ ':' :: padChars 2 dt.minute ++ ':' :: padChars 2 dt.second ++
  fracChars dt.microsecond ++ ['Z']

/-- String form of `isoFormatChars`. -/
def isoFormat (dt : DateTime) : String := ⟨isoFormatChars dt⟩

/-- Read exactly `n` digit characters into an accumulator. -/
def readN : Nat → Nat → List Char → Option (Nat × List Char)
  | 0, acc, cs => some (acc, cs)
  | n+1, acc, c :: cs => if isDig c then readN n (acc * 10 + digVal c) cs else none
  | _+1, _, [] => none

/-- Expect one literal character. -/
def expectChar (e : Char) : List Char → Option (List Char)
  | c :: cs => if c = e then some cs else none
  | [] => none

/-- Read a run of digit characters, returning value, digit count, rest. -/
def readDigitsCount : List Char → Nat → Nat → Nat × Nat × List Char
  | [], acc, k => (acc, k, [])
  | c :: cs, acc, k =>
    if isDig c then readDigitsCount cs (acc * 10 + digVal c) (k+1) else (acc, k, c :: cs)

/-- Sub-second stage of the ISO-8601 parse: either the bare designator `Z`
(microsecond zero) or a dot, at least one fraction digit (digits beyond
microseconds truncate, matching microsecond-resolution host instants), and
the designator. -/
def isoFracZ : List Char → Option Nat
  | '.' :: cs' =>
    let t := readDigitsCount cs' 0 0
    if t.2.1 = 0 then none
    else if t.2.2 = ['Z'] then
      some (if t.2.1 ≤ 6 then t.1 * 10 ^ (6 - t.2.1) else t.1 / 10 ^ (t.2.1 - 6))
    else none
  | ['Z'] => some 0
  | _ => none

/-- Seconds stage of the ISO-8601 parse: two digits then the fraction. -/
def isoSecond (cs : List Char) : Option (Nat × Nat) :=
  match readN 2 0 cs with
  | some (s, cs1) => (isoFracZ cs1).map (fun us => (s, us))
  | none => none

/-- Minutes stage: two digits, a colon, then the seconds stage. -/
def isoMinute (cs : List Char) : Option (Nat × Nat × Nat) :=
  match readN 2 0 cs with
  | some (mi, cs1) =>
    match expectChar ':' cs1 with
    | some cs2 => (isoSecond cs2).map (fun p => (mi, p))
    | none => none
  | none => none

/-- Hours stage: two digits, a colon, then the minutes stage. -/
def isoHour (cs : List Char) : Option (Nat × Nat × Nat × Nat) :=
  match readN 2 0 cs with
  | some (h, cs1) =>
    match expectChar ':' cs1 with
    | some cs2 => (isoMinute cs2).map (fun p => (h, p))
    | none => none
  | none => none

/-- Day stage: two digits, the `T` separator, then the hours stage. -/
def isoDay (cs : List Char) : Option (Nat × Nat × Nat × Nat × Nat) :=
  match readN 2 0 cs with
  | some (d, cs1) =>
    match expectChar 'T' cs1 with
    | some cs2 => (isoHour cs2).map (fun p => (d, p))
    | none => none
  | none => none

/-- Month stage: two digits, a dash, then the day stage. -/
def isoMonth (cs : List Char) : Option (Nat × Nat × Nat × Nat × Nat × Nat) :=
  match readN 2 0 cs with
  | some (mo, cs1) =>
    match expectChar '-' cs1 with
    | some cs2 => (isoDay cs2).map (fun p => (mo, p))
    | none => none
  | none => none

/-- Modelled from the spec (§4.3 `@ts` row, missing iso8601 parse call in
`faunadb/objects.py`): parse an ISO-8601 UTC timestamp string, supporting
arbitrary sub-second digit precision; the result is an aware instant. -/
def parseIsoChars (cs0 : List Char) : Option DateTime :=
  match readN 4 0 cs0 with
  | some (y, cs1) =>
    match expectChar '-' cs1 with
    | some cs2 =>
      (isoMonth cs2).map (fun p =>
        ⟨y, p.1, p.2.1, p.2.2.1, p.2.2.2.1, p.2.2.2.2.1, p.2.2.2.2.2, true⟩)
    | none => none
  | none => none

/-- Modelled from the spec (§3 Timestamp, missing `faunadb/objects.py`):
a FaunaTime stores its ISO-8601 string; equality is structural on it. -/
structure FaunaTime where
  value : String
deriving DecidableEq, Repr

/-- Modelled from the spec (§3 Timestamp invariant): constructing a
FaunaTime from a naive instant fails with the ValueError-class condition;
an aware instant is stored as its ISO-8601 UTC string. -/
def FaunaTime.ofDatetime (dt : DateTime) : Except PyErr FaunaTime :=
  if dt.aware then .ok ⟨isoFormat dt⟩
  else .error (.valueError "FaunaTime requires offset-aware datetimes")

/-- Modelled from the spec (§3 Timestamp): recover the host instant by
parsing the stored ISO-8601 string. -/
def FaunaTime.to_datetime (t : FaunaTime) : Option DateTime :=
  parseIsoChars t.value.data

/-- Modelled from the spec (§3 Date, missing `faunadb/objects.py`): a
FaunaDate stores its `YYYY-MM-DD` string; equality is structural. -/
structure FaunaDate where
  value : String
deriving DecidableEq, Repr

/-- Host-side value universe seen by the codec: plain JSON data, the typed
values of the object model, query expression nodes (plain ordered
mappings, spec §3), a plain mapping wrapped as literal object data
(spec §4.2 `@obj` escape), and a raw host instant subject to encode-time
auto-promotion (spec §4.2). -/
inductive Value where
  | null : Value
  | bool (b : Bool) : Value
  | int (n : Int) : Value
  | str (s : String) : Value
  | arr (elems : List Value) : Value
  | obj (fields : List (String × Value)) : Value
  | objectLiteral (fields : List (String × Value)) : Value
  | ref (r : Ref) : Value
  | setRef (matched : Value) : Value
  | time (t : FaunaTime) : Value
  | date (d : FaunaDate) : Value
  | instant (dt : DateTime) : Value

mutual

/-- Modelled from the spec (§4.2 JSON Codec — Encode, missing
`faunadb/_json.py`): recursive depth-first encoding into the tagged wire
format.  Failures (a naive instant) surface the ValueError-class condition
raised by the Timestamp constructor, which the spec files under
EncodingError. -/
def toFaunaJson : Value → Except PyErr Json
  | .null => .ok .null
  | .bool b => .ok (.bool b)
  | .int n => .ok (.num n)
  | .str s => .ok (.str s)
  | .arr xs =>
    match encodeList xs with
    | .ok js => .ok (.arr js)
    | .error e => .error e
  | .obj fs =>
    match encodeFields fs with
    | .ok gs => .ok (.obj gs)
    | .error e => .error e
  | .objectLiteral fs =>
    match encodeFields fs with
    | .ok gs => .ok (.obj [("@obj", .obj gs)])
    | .error e => .error e
  | .ref r => .ok (.obj [("@ref", .str r.value)])
  | .setRef m =>
    match toFaunaJson m with
    | .ok j => .ok (.obj [("@set", j)])
    | .error e => .error e
  | .time t => .ok (.obj [("@ts", .str t.value)])
  | .date d => .ok (.obj [("@date", .str d.value)])
  | .instant dt =>
    match FaunaTime.ofDatetime dt with
    | .ok t => .ok (.obj [("@ts", .str t.value)])
    | .error e => .error e

/-- Encode the elements of an array in order. -/
def encodeList : List Value → Except PyErr (List Json)
  | [] => .ok []
  | v :: vs =>
    match toFaunaJson v with
    | .ok j =>
      match encodeList vs with
      | .ok js => .ok (j :: js)
      | .error e => .error e
    | .error e => .error e

/-- Encode the fields of a mapping in order. -/
def encodeFields : List (String × Value) → Except PyErr (List (String × Json))
  | [] => .ok []
  | (k, v) :: fs =>
    match toFaunaJson v with
    | .ok j =>
      match encodeFields fs with
      | .ok gs => .ok ((k, j) :: gs)
      | .error e => .error e
    | .error e => .error e

end

mutual

/-- Modelled from the spec (§4.3 JSON Codec — Decode, missing
`faunadb/_json.py`): bottom-up reconstruction pass over a parsed JSON
document.  A single-key object is matched against the tag table in spec
precedence (`@ref`, `@set`, `@ts`, `@date`, `@obj`); an object with more
than one key is never a tag form. -/
def fromJson : Json → Value
  | .null => .null
  | .bool b => .bool b
  | .num n => .int n
  | .str s => .str s
  | .arr es => .arr (decodeList es)
  | .obj fs =>
    match decodeFields fs with
    | [(k, v)] =>
      if k = "@ref" then
        match v with
        | .str s => .ref ⟨s⟩
        | _ => .obj [(k, v)]
      else if k = "@set" then .setRef v
      else if k = "@ts" then
        match v with
        | .str s => .time ⟨s⟩
        | _ => .obj [(k, v)]
      else if k = "@date" then
        match v with
        | .str s => .date ⟨s⟩
        | _ => .obj [(k, v)]
      else if k = "@obj" then v
      else .obj [(k, v)]
    | dfs => .obj dfs

/-- Decode array elements in order. -/
def decodeList : List Json → List Value
  | [] => []
  | e :: es => fromJson e :: decodeList es

/-- Decode mapping fields in order. -/
def decodeFields : List (String × Json) → List (String × Value)
  | [] => []
  | (k, v) :: fs => (k, fromJson v) :: decodeFields fs

end

/-- Reserved tag keys (spec §6): never used as ordinary data keys without
escaping. -/
def tagKeys : List String := ["@ref", "@set", "@ts", "@date", "@obj"]

mutual

/-- Representable values (spec §4.3 "for all representable v"): typed
values, and plain scalars/arrays/mappings whose mappings do not misuse a
reserved tag key as the single key of an ordinary mapping (spec §6); the
`@obj` literal wrapper and raw host instants are encode-side inputs, not
decode outputs, so they are outside the round-trip domain. -/
def representable : Value → Bool
  | .null => true
  | .bool _ => true
  | .int _ => true
  | .str _ => true
  | .arr xs => representableList xs
  | .obj fs =>
    (match fs with
     | [(k, _)] => !(tagKeys.contains k)
     | _ => true) && representableFields fs
  | .objectLiteral _ => false
  | .ref _ => true
  | .setRef m => representable m
  | .time _ => true
  | .date _ => true
  | .instant _ => false

/-- All elements representable. -/
def representableList : List Value → Bool
  | [] => true
  | v :: vs => representable v && representableList vs

/-- All field values representable. -/
def representableFields : List (String × Value) → Bool
  | [] => true
  | (_, v) :: fs => representable v && representableFields fs

end

/-- Modelled from the spec (§4.4, missing `faunadb/query.py`): the `match`
set-operation constructor emits the expression node with the `match`
operand first and the `terms` operand second (spec §8 key order). -/
def queryMatch (index : Value) (terms : Value) : Value :=
  .obj [("match", index), ("terms", terms)]

/-- Look up a key in an ordered list of decoded fields (first match). -/
def lookupVal (k : String) : List (String × Value) → Option Value
  | [] => none
  | (k', v) :: rest => if k' = k then some v else lookupVal k rest

/-- Status-keyed error variants plus the invalid-response condition
(spec §4.5 / §7). -/
inductive ErrKind where
  | badRequest : ErrKind
  | unauthorized : ErrKind
  | permissionDenied : ErrKind
  | notFound : ErrKind
  | internalError : ErrKind
  | unavailableError : ErrKind
  | unknownError : ErrKind
  | invalidResponse : ErrKind
deriving DecidableEq, Repr

/-- Modelled from the spec (§4.5 / §6, missing `faunadb/errors.py`): one
decoded server error entry — its code, description and position path. -/
structure ErrorData where
  code : Option Value
  description : Option Value
  position : Option Value

/-- Decode one entry of the payload's error list. -/
def ErrorData.ofValue (v : Value) : ErrorData :=
  match v with
  | .obj fs => ⟨lookupVal "code" fs, lookupVal "description" fs, lookupVal "position" fs⟩
  | _ => ⟨none, none, none⟩

/-- Modelled from the spec (§4.5, missing `faunadb/errors.py`): decode the
payload's `errors` array into structured entries. -/
def decodeErrors (payload : Value) : List ErrorData :=
  match payload with
  | .obj fs =>
    match lookupVal "errors" fs with
    | some (.arr es) => es.map ErrorData.ofValue
    | _ => []
  | _ => []

/-- Immutable record of a completed request (client.py:153–157); the
owning-client back reference is omitted (it carries no data the dispatcher
reads), and start/end times are opaque observability numbers. -/
structure RequestResult where
  action : String
  path : String
  query : Option (List (String × String))
  data : Option Value
  response_content : Value
  status_code : Nat
  headers : List (String × String)
  start_time : Nat
  end_time : Nat

/-- An error raised by the dispatcher: its variant, the full RequestResult
(when one exists at raise time) and the decoded error list (spec §4.5). -/
structure FaunaError where
  kind : ErrKind
  request_result : Option RequestResult
  errors : List ErrorData

/-- Modelled from the spec (§4.5, missing `faunadb/errors.py`): return the
payload's field `k`, failing with the InvalidResponse condition when the
field is absent or the payload is not a mapping. -/
def get_or_invalid (payload : Value) (k : String) : Except FaunaError Value :=
  match payload with
  | .obj fs =>
    match lookupVal k fs with
    | some x => .ok x
    | none => .error ⟨.invalidResponse, none, []⟩
  | _ => .error ⟨.invalidResponse, none, []⟩

/-- Modelled from the spec (§4.5, missing `faunadb/errors.py`): the variant
for a status code — none for 2xx; specific codes first (400 BadRequest,
401 Unauthorized, 403 PermissionDenied, 404 NotFound, 503 Unavailable),
then InternalError for the remaining 5xx, else the generic variant. -/
def errorKindForStatus (code : Nat) : Option ErrKind :=
  if 200 ≤ code ∧ code ≤ 299 then none
  else some (
    if code = 400 then .badRequest
    else if code = 401 then .unauthorized
    else if code = 403 then .permissionDenied
    else if code = 404 then .notFound
    else if code = 503 then .unavailableError
    else if 500 ≤ code ∧ code ≤ 599 then .internalError
    else .unknownError)

/-- Modelled from the spec (§4.5, missing `faunadb/errors.py`): raise the
status-specific error, carrying the full RequestResult and the decoded
error list, or pass on 2xx (called at client.py:162). -/
def raise_for_status_code (rr : RequestResult) : Except FaunaError Unit :=
  match errorKindForStatus rr.status_code with
  | some k => .error ⟨k, some rr, decodeErrors rr.response_content⟩
  | none => .ok ()

/-- The dispatch tail of `_execute` (client.py:162–163): raise the
status-specific error for the status code, then extract the `resource`
field of the decoded payload. -/
def dispatch (rr : RequestResult) : Except FaunaError Value :=
  match raise_for_status_code rr with
  | .error e => .error e
  | .ok _ => get_or_invalid rr.response_content "resource"

/-- The client configuration `_execute` consults (client.py:29–69): whether
an observer callback was supplied; the session/auth fields feed only the
out-of-scope transport. -/
structure Client where
  observer : Bool

/-- The request handed to the transport by `_perform_request`
(client.py:165–169): action, path, URL parameters and body. -/
structure SentRequest where
  action : String
  path : String
  params : List (String × String)
  body : Option Value

/-- Observable events of one `_execute` run, in order: the observer
callback invocation, then either the raised error or the returned value. -/
inductive Event where
  | observerCall (rr : RequestResult) : Event
  | raised (e : FaunaError) : Event
  | returned (v : Value) : Event

/-- The transport's completed response (status line, headers, body text). -/
structure HttpResponse where
  text : String
  status_code : Nat
  headers : List (String × String)

/-- An exception propagating out of `_execute`: either `parse_json` failed
on the response text (before the RequestResult exists), or a FaunaError. -/
inductive DispatchErr where
  | parseFailure : DispatchErr
  | fauna (e : FaunaError) : DispatchErr

/-- Everything observable about one `_execute` run: the request sent, the
ordered event trace, and the outcome. -/
structure ExecOut where
  sent : SentRequest
  events : List Event
  result : Except DispatchErr Value

/-- Shallow embedding of `Client._execute` (client.py:140–163): resolve a
Ref path to its value, drop query pairs whose value is None, send the
request, parse the response text, build the RequestResult, call the
observer if present, raise for the status code, and finally extract the
`resource` field.  The transport call is an input (`resp`); wall-clock
start/end times are opaque inputs. -/
def execute (c : Client) (action : String) (path0 : Ref ⊕ String)
    (data : Option Value) (query : Option (List (String × Option String)))
    (resp : HttpResponse) (start_time end_time : Nat) : ExecOut :=
  let path := match path0 with
    | .inl r => r.value
    | .inr s => s
  let query' : Option (List (String × String)) :=
    query.map (fun q => q.filterMap (fun kv => kv.2.map (fun v => (kv.1, v))))
  let sent : SentRequest := ⟨action, path, query'.getD [], data⟩
  match parseJsonText resp.text with
  | none => ⟨sent, [], .error .parseFailure⟩
  | some j =>
    let response_dict := fromJson j
    let rr : RequestResult :=
      ⟨action, path, query', data, response_dict, resp.status_code, resp.headers,
       start_time, end_time⟩
    let obsEvents := if c.observer then [Event.observerCall rr] else []
    let term := match dispatch rr with
      | .ok v => Event.returned v
      | .error e => Event.raised e
    ⟨sent, obsEvents ++ [term], (dispatch rr).mapError .fauna⟩

/-- Shallow embedding of `Client.get` (client.py:78–87). -/
def Client.get (c : Client) (path : Ref ⊕ String)
    (query : Option (List (String × Option String)))
    (resp : HttpResponse) (start_time end_time : Nat) : ExecOut :=
  execute c "GET" path none query resp start_time end_time

/-- Shallow embedding of `Client.ping` (client.py:133–138): a GET of
`ping` with the `scope` and `timeout` query parameters. -/
def Client.ping (c : Client) (scope timeout : Option String)
    (resp : HttpResponse) (start_time end_time : Nat) : ExecOut :=
  c.get (.inr "ping") (some [("scope", scope), ("timeout", timeout)]) resp
    start_time end_time

theorem isDig_digChar : ∀ d < 10, isDig (digChar d) = true := by decide

theorem digVal_digChar : ∀ d < 10, digVal (digChar d) = d := by decide

theorem readN_padChars_append :
    ∀ (w n acc v : Nat) (rest : List Char), v < 10 ^ w →
      readN (w + n) acc (padChars w v ++ rest) = readN n (acc * 10 ^ w + v) rest := by
  intro w
  induction w with
  | zero =>
    intro n acc v rest hv
    interval_cases v
    simp [padChars]
  | succ w ih =>
    intro n acc v rest hv
    have hmod : v % 10 < 10 := Nat.mod_lt v (by norm_num)
    have hdiv : v / 10 < 10 ^ w := by
      rw [Nat.div_lt_iff_lt_mul (by norm_num)]
      calc v < 10 ^ (w + 1) := hv
        _ = 10 ^ w * 10 := by ring
    have hshape : padChars (w + 1) v ++ rest =
        padChars w (v / 10) ++ (digChar (v % 10) :: rest) := by
      simp [padChars]
    rw [hshape, show w + 1 + n = w + (n + 1) by omega, ih (n + 1) acc (v / 10) _ hdiv]
    rw [show readN (n + 1) (acc * 10 ^ w + v / 10) (digChar (v % 10) :: rest) =
        readN n ((acc * 10 ^ w + v / 10) * 10 + digVal (digChar (v % 10))) rest by
      simp [readN, isDig_digChar _ hmod]]
    rw [digVal_digChar _ hmod]
    congr 1
    have := Nat.div_add_mod v 10
    ring_nf
    omega

theorem readN_padChars (w acc v : Nat) (rest : List Char) (hv : v < 10 ^ w) :
    readN w acc (padChars w v ++ rest) = some (acc * 10 ^ w + v, rest) := by
  have h := readN_padChars_append w 0 acc v rest hv
  rw [Nat.add_zero] at h
  rw [h]
  rfl

theorem expectChar_cons (e : Char) (rest : List Char) :
    expectChar e (e :: rest) = some rest := by
  simp [expectChar]

theorem readDigitsCount_padChars_append :
    ∀ (w acc k v : Nat) (rest : List Char), v < 10 ^ w →
      readDigitsCount (padChars w v ++ rest) acc k =
        readDigitsCount rest (acc * 10 ^ w + v) (k + w) := by
  intro w
  induction w with
  | zero =>
    intro acc k v rest hv
    interval_cases v
    simp [padChars]
  | succ w ih =>
    intro acc k v rest hv
    have hmod : v % 10 < 10 := Nat.mod_lt v (by norm_num)
    have hdiv : v / 10 < 10 ^ w := by
      rw [Nat.div_lt_iff_lt_mul (by norm_num)]
      calc v < 10 ^ (w + 1) := hv
        _ = 10 ^ w * 10 := by ring
    have hshape : padChars (w + 1) v ++ rest =
        padChars w (v / 10) ++ (digChar (v % 10) :: rest) := by
      simp [padChars]
    rw [hshape, ih acc k (v / 10) _ hdiv]
    rw [show readDigitsCount (digChar (v % 10) :: rest) (acc * 10 ^ w + v / 10) (k + w) =
        readDigitsCount rest ((acc * 10 ^ w + v / 10) * 10 + digVal (digChar (v % 10)))
          (k + w + 1) by
      simp [readDigitsCount, isDig_digChar _ hmod]]
    rw [digVal_digChar _ hmod]
    congr 1
    have := Nat.div_add_mod v 10
    ring_nf
    omega

theorem stripZeros_spec :
    ∀ (w v : Nat), 1 ≤ w → v < 10 ^ w → v ≠ 0 →
      1 ≤ (stripZeros v w).2 ∧ (stripZeros v w).2 ≤ w ∧
      (stripZeros v w).1 < 10 ^ (stripZeros v w).2 ∧
      (stripZeros v w).1 * 10 ^ (w - (stripZeros v w).2) = v ∧
      (stripZeros v w).1 % 10 ≠ 0 := by
  intro w
  induction w using Nat.strong_induction_on with
  | _ w ih =>
    intro v hw hv hne
    match w, hw with
    | 1, _ =>
      have : v % 10 = v := Nat.mod_eq_of_lt (by simpa using hv)
      simp [stripZeros]
      omega
    | (w' + 2), _ =>
      by_cases hmod : v % 10 = 0
      · have hstep : stripZeros v (w' + 2) = stripZeros (v / 10) (w' + 1) := by
          simp [stripZeros, hmod]
        have hdiv : v / 10 < 10 ^ (w' + 1) := by
          rw [Nat.div_lt_iff_lt_mul (by norm_num)]
          calc v < 10 ^ (w' + 2) := hv
            _ = 10 ^ (w' + 1) * 10 := by ring
        have hdne : v / 10 ≠ 0 := by
          intro h0
          have := Nat.div_add_mod v 10
          omega
        have hrec := ih (w' + 1) (by omega) (v / 10) (by omega) hdiv hdne
        rw [hstep]
        refine ⟨hrec.1, by omega, hrec.2.2.1, ?_, hrec.2.2.2.2⟩
        have hval := hrec.2.2.2.1
        have hle := hrec.2.1
        have hexp : w' + 2 - (stripZeros (v / 10) (w' + 1)).2 =
            (w' + 1 - (stripZeros (v / 10) (w' + 1)).2) + 1 := by omega
        rw [hexp, pow_succ, ← Nat.mul_assoc, hval]
        have := Nat.div_add_mod v 10
        omega
      · have hstep : stripZeros v (w' + 2) = (v, w' + 2) := by
          simp [stripZeros, hmod]
        rw [hstep]
        exact ⟨by omega, le_refl _, hv, by simp, hmod⟩

theorem readDigitsCount_stopZ (acc k : Nat) :
    readDigitsCount ['Z'] acc k = (acc, k, ['Z']) := rfl

theorem isoFracZ_fracChars (us : Nat) (hus : us < 1000000) :
    isoFracZ (fracChars us ++ ['Z']) = some us := by
  by_cases h0 : us = 0
  · subst h0
    simp [fracChars, isoFracZ]
  · obtain ⟨hp1, hp2, hp3, hp4, hp5⟩ :=
      stripZeros_spec 6 us (by omega) (by norm_num; omega) h0
    have hfrac : fracChars us = '.' :: padChars (stripZeros us 6).2 (stripZeros us 6).1 := by
      simp [fracChars, h0]
    rw [hfrac, List.cons_append]
    simp only [isoFracZ]
    rw [readDigitsCount_padChars_append _ 0 0 _ _ hp3, readDigitsCount_stopZ]
    simp only [Nat.zero_mul, Nat.zero_add]
    have hne : ¬((stripZeros us 6).2 = 0) := by omega
    simp [hne, hp2, hp4]

theorem isoSecond_pad (s us : Nat) (hs : s < 100) (hus : us < 1000000) :
    isoSecond (padChars 2 s ++ (fracChars us ++ ['Z'])) = some (s, us) := by
  unfold isoSecond
  rw [readN_padChars 2 0 s _ (by norm_num; omega)]
  simp [isoFracZ_fracChars us hus]

theorem isoMinute_pad (mi s us : Nat) (hmi : mi < 100) (hs : s < 100)
    (hus : us < 1000000) :
    isoMinute (padChars 2 mi ++
      (':' :: (padChars 2 s ++ (fracChars us ++ ['Z'])))) = some (mi, s, us) := by
  unfold isoMinute
  rw [readN_padChars 2 0 mi _ (by norm_num; omega)]
  simp [expectChar_cons, isoSecond_pad s us hs hus]

theorem isoHour_pad (h mi s us : Nat) (hh : h < 100) (hmi : mi < 100) (hs : s < 100)
    (hus : us < 1000000) :
    isoHour (padChars 2 h ++
      (':' :: (padChars 2 mi ++
        (':' :: (padChars 2 s ++ (fracChars us ++ ['Z'])))))) = some (h, mi, s, us) := by
  unfold isoHour
  rw [readN_padChars 2 0 h _ (by norm_num; omega)]
  simp [expectChar_cons, isoMinute_pad mi s us hmi hs hus]

theorem isoDay_pad (d h mi s us : Nat) (hd : d < 100) (hh : h < 100) (hmi : mi < 100)
    (hs : s < 100) (hus : us < 1000000) :
    isoDay (padChars 2 d ++
      ('T' :: (padChars 2 h ++
        (':' :: (padChars 2 mi ++
          (':' :: (padChars 2 s ++ (fracChars us ++ ['Z'])))))))) =
      some (d, h, mi, s, us) := by
  unfold isoDay
  rw [readN_padChars 2 0 d _ (by norm_num; omega)]
  simp [expectChar_cons, isoHour_pad h mi s us hh hmi hs hus]

theorem isoMonth_pad (mo d h mi s us : Nat) (hmo : mo < 100) (hd : d < 100)
    (hh : h < 100) (hmi : mi < 100) (hs : s < 100) (hus : us < 1000000) :
    isoMonth (padChars 2 mo ++
      ('-' :: (padChars 2 d ++
        ('T' :: (padChars 2 h ++
          (':' :: (padChars 2 mi ++
            (':' :: (padChars 2 s ++ (fracChars us ++ ['Z'])))))))))) =
      some (mo, d, h, mi, s, us) := by
  unfold isoMonth
  rw [readN_padChars 2 0 mo _ (by norm_num; omega)]
  simp [expectChar_cons, isoDay_pad d h mi s us hd hh hmi hs hus]

theorem parseIso_isoFormat (dt : DateTime) (hv : dt.Valid) (ha : dt.aware = true) :
    parseIsoChars (isoFormat dt).data = some dt := by
  obtain ⟨y, mo, d, h, mi, s, us, aw⟩ := dt
  subst ha
  unfold DateTime.Valid at hv
  simp only at hv
  obtain ⟨hy1, hy2, hm1, hm2, hd1, hd2, hh, hmi, hs, hus⟩ := hv
  have hshape : (isoFormat ⟨y, mo, d, h, mi, s, us, true⟩).data =
      padChars 4 y ++
        ('-' :: (padChars 2 mo ++
          ('-' :: (padChars 2 d ++
            ('T' :: (padChars 2 h ++
              (':' :: (padChars 2 mi ++
                (':' :: (padChars 2 s ++ (fracChars us ++ ['Z']))))))))))) := by
    show isoFormatChars ⟨y, mo, d, h, mi, s, us, true⟩ = _
    simp [isoFormatChars, List.append_assoc, List.cons_append]
  rw [hshape]
  unfold parseIsoChars
  rw [readN_padChars 4 0 y _ (by norm_num; omega)]
  simp [expectChar_cons,
    isoMonth_pad mo d h mi s us (by omega) (by omega) (by omega) (by omega) (by omega) hus]

theorem roundtrip_value :
    ∀ (n : Nat) (v : Value), sizeOf v ≤ n → representable v = true →
      ∃ j, toFaunaJson v = .ok j ∧ fromJson j = v := by
  intro n
  induction n with
  | zero =>
    intro v hsz _
    exfalso
    cases v <;> simp at hsz
  | succ n ih =>
    intro v hsz hrep
    have hlist : ∀ (xs : List Value), sizeOf xs ≤ n + 1 → representableList xs = true →
        ∃ js, encodeList xs = .ok js ∧ decodeList js = xs := by
      intro xs
      induction xs with
      | nil => exact fun _ _ => ⟨[], rfl, rfl⟩
      | cons v vs ihl =>
        intro hsz hr
        simp only [representableList, Bool.and_eq_true] at hr
        obtain ⟨j, hj, hjd⟩ := ih v (by simp at hsz; omega) hr.1
        obtain ⟨js, hjs, hjsd⟩ := ihl (by simp at hsz ⊢; omega) hr.2
        exact ⟨j :: js, by simp [encodeList, hj, hjs], by simp [decodeList, hjd, hjsd]⟩
    have hfields : ∀ (fs : List (String × Value)), sizeOf fs ≤ n + 1 →
        representableFields fs = true →
        ∃ gs, encodeFields fs = .ok gs ∧ decodeFields gs = fs := by
      intro fs
      induction fs with
      | nil => exact fun _ _ => ⟨[], rfl, rfl⟩
      | cons kv fs ihl =>
        obtain ⟨k, v⟩ := kv
        intro hsz hr
        simp only [representableFields, Bool.and_eq_true] at hr
        obtain ⟨j, hj, hjd⟩ := ih v (by simp at hsz; omega) hr.1
        obtain ⟨gs, hgs, hgsd⟩ := ihl (by simp at hsz ⊢; omega) hr.2
        exact ⟨(k, j) :: gs, by simp [encodeFields, hj, hgs],
          by simp [decodeFields, hjd, hgsd]⟩
    cases v with
    | null => exact ⟨.null, rfl, rfl⟩
    | bool b => exact ⟨.bool b, rfl, rfl⟩
    | int m => exact ⟨.num m, rfl, rfl⟩
    | str s => exact ⟨.str s, rfl, rfl⟩
    | ref r => exact ⟨.obj [("@ref", .str r.value)], rfl, rfl⟩
    | time t => exact ⟨.obj [("@ts", .str t.value)], rfl, rfl⟩
    | date d => exact ⟨.obj [("@date", .str d.value)], rfl, rfl⟩
    | instant dt => simp [representable] at hrep
    | objectLiteral fs => simp [representable] at hrep
    | setRef m =>
      simp only [representable] at hrep
      obtain ⟨j, hj, hjd⟩ := ih m (by simp at hsz; omega) hrep
      refine ⟨.obj [("@set", j)], by simp [toFaunaJson, hj], ?_⟩
      simp [fromJson, decodeFields, hjd]
    | arr xs =>
      simp only [representable] at hrep
      obtain ⟨js, hjs, hjsd⟩ := hlist xs (by simp at hsz; omega) hrep
      exact ⟨.arr js, by simp [toFaunaJson, hjs], by simp [fromJson, hjsd]⟩
    | obj fs =>
      simp only [representable, Bool.and_eq_true] at hrep
      obtain ⟨gs, hgs, hgsd⟩ := hfields fs (by simp at hsz; omega) hrep.2
      refine ⟨.obj gs, by simp [toFaunaJson, hgs], ?_⟩
      have hone := hrep.1
      simp only [fromJson, hgsd]
      match fs, hone with
      | [], _ => rfl
      | [(k, v)], hone =>
        simp only at hone
        have hk : ¬ (k = "@ref" ∨ k = "@set" ∨ k = "@ts" ∨ k = "@date" ∨ k = "@obj") := by
          simpa [tagKeys] using hone
        push_neg at hk
        obtain ⟨h1, h2, h3, h4, h5⟩ := hk
        simp [h1, h2, h3, h4, h5]
      | (a :: b :: rest), _ => rfl

/-- Concrete nested value used to witness the round trip: every typed
constructor plus nested plain containers and scalars. -/
def sampleValue : Value :=
  .arr [.ref ⟨"classes/frogs/123"⟩,
        .setRef (queryMatch (.ref ⟨"indexes/frogs_by_size"⟩) (.ref ⟨"classes/frogs/123"⟩)),
        .time ⟨"1970-01-01T00:00:00.123456789Z"⟩,
        .date ⟨"1970-01-01"⟩,
        .obj [("a", .int 1), ("b", .arr [.null, .bool true, .str "x"])],
        .int (-3), .null]

/-- C1: decode is the exact left inverse of encode: for every representable
value — the typed values (Reference, SetReference, Timestamp, Date) and
arbitrarily nested plain mappings/arrays/scalars that respect the reserved
tag-key namespace of spec §6 — decoding the encoded form gives back the
value. -/
theorem C1_decode_left_inverse_of_encode (v : Value) (h : representable v = true) :
    (toFaunaJson v).map fromJson = .ok v := by
  obtain ⟨j, hj, hjd⟩ := roundtrip_value (sizeOf v) v le_rfl h
  rw [hj]
  simp [Except.map, hjd]

/-- Witness for C1 at a concrete nested value. -/
theorem C1_witness :
    representable sampleValue = true ∧
      (toFaunaJson sampleValue).map fromJson = .ok sampleValue :=
  ⟨rfl, C1_decode_left_inverse_of_encode sampleValue rfl⟩

/-- C3: requesting the instance id of a collection-only Reference fails
with the InvalidValue (ValueError-class) condition, while a Reference that
has an instance id returns it. -/
theorem C3_ref_id :
    (Ref.ofParts "keys" []).id = .error (.valueError "Ref does not have an id.") ∧
      ((Ref.ofParts "keys" []).child "123").id = .ok "123" :=
  ⟨rfl, rfl⟩

/-- C7: `to_class` strips the instance id: it is the identity on the
collection-only Reference `keys`, and `Ref(keys, "123").to_class() == keys`. -/
theorem C7_to_class_strips_id :
    (Ref.ofParts "keys" []).to_class = Ref.ofParts "keys" [] ∧
      ((Ref.ofParts "keys" []).child "123").to_class = Ref.ofParts "keys" [] :=
  ⟨rfl, rfl⟩

/-- C6: a SetReference wrapping `match(indexRef, docRef)` encodes to
exactly the tagged text with the key `match` ordered before `terms` inside
the `@set` value. -/
theorem C6_setref_encoding :
    (toFaunaJson (.setRef (queryMatch
        (.ref (Ref.ofParts "indexes" ["frogs_by_size"]))
        (.ref (Ref.ofParts "classes" ["frogs", "123"]))))).map Json.render =
      .ok "\x7b\"@set\":\x7b\"match\":\x7b\"@ref\":\"indexes/frogs_by_size\"\x7d,\"terms\":\x7b\"@ref\":\"classes/frogs/123\"\x7d\x7d\x7d" :=
  rfl

/-- C8: the `@obj` tag escapes plain-mapping literal data: the mapping
`a ↦ 1, b ↦ 2` wrapped as literal object data encodes to exactly the
`@obj`-tagged text, and decoding that text (with spaces) unwraps one level
to the plain mapping. -/
theorem C8_obj_escape :
    (toFaunaJson (.objectLiteral [("a", .int 1), ("b", .int 2)])).map Json.render =
      .ok "\x7b\"@obj\":\x7b\"a\":1,\"b\":2\x7d\x7d" ∧
    (parseJsonText "\x7b\"@obj\": \x7b\"a\": 1, \"b\": 2\x7d\x7d").map fromJson =
      some (.obj [("a", .int 1), ("b", .int 2)]) :=
  ⟨rfl, rfl⟩

/-- The UTC epoch instant, `datetime.fromtimestamp(0, iso8601.UTC)`. -/
def epochInstant : DateTime := ⟨1970, 1, 1, 0, 0, 0, 0, true⟩

/-- C4: constructing a Timestamp from a naive instant fails with the
ValueError-class condition; constructing from a timezone-aware instant
succeeds and round-trips through `to_datetime`; the Timestamp of the epoch
instant equals the Timestamp built from the string
`1970-01-01T00:00:00Z`. -/
theorem C4_timestamp_construction (dt : DateTime) :
    (dt.aware = false → FaunaTime.ofDatetime dt =
      .error (.valueError "FaunaTime requires offset-aware datetimes")) ∧
    (dt.aware = true → dt.Valid →
      ∃ t, FaunaTime.ofDatetime dt = .ok t ∧ t.to_datetime = some dt) ∧
    FaunaTime.ofDatetime epochInstant = .ok ⟨"1970-01-01T00:00:00Z"⟩ := by
  refine ⟨?_, ?_, rfl⟩
  · intro h
    simp [FaunaTime.ofDatetime, h]
  · intro ha hv
    refine ⟨⟨isoFormat dt⟩, by simp [FaunaTime.ofDatetime, ha], ?_⟩
    simpa [FaunaTime.to_datetime] using parseIso_isoFormat dt hv ha

/-- Witness for C4: a concrete aware instant round-trips and a concrete
naive instant is rejected. -/
theorem C4_witness :
    (∃ t, FaunaTime.ofDatetime ⟨2024, 5, 7, 1, 2, 3, 250000, true⟩ = .ok t ∧
        t.to_datetime = some ⟨2024, 5, 7, 1, 2, 3, 250000, true⟩) ∧
      FaunaTime.ofDatetime ⟨1970, 1, 1, 0, 0, 0, 0, false⟩ =
        .error (.valueError "FaunaTime requires offset-aware datetimes") :=
  ⟨(C4_timestamp_construction ⟨2024, 5, 7, 1, 2, 3, 250000, true⟩).2.1 rfl (by decide),
   (C4_timestamp_construction ⟨1970, 1, 1, 0, 0, 0, 0, false⟩).1 rfl⟩

theorem padChars_length : ∀ (w v : Nat), (padChars w v).length = w := by
  intro w
  induction w with
  | zero => intro v; rfl
  | succ w ih => intro v; simp [padChars, ih]

theorem digChar_ne_zeroChar (d : Nat) (hd : d < 10) (h0 : d ≠ 0) : digChar d ≠ '0' := by
  intro h
  have hdig := digVal_digChar d hd
  rw [h] at hdig
  simp [digVal] at hdig
  omega

theorem fracChars_trimmed (us : Nat) (h6 : us < 1000000) (h0 : us ≠ 0) :
    ∃ ds, fracChars us = '.' :: ds ∧ ds ≠ [] ∧ ds.getLast? ≠ some '0' := by
  obtain ⟨hp1, hp2, hp3, hp4, hp5⟩ :=
    stripZeros_spec 6 us (by omega) (by norm_num; omega) h0
  refine ⟨padChars (stripZeros us 6).2 (stripZeros us 6).1, by simp [fracChars, h0], ?_, ?_⟩
  · intro h
    have := padChars_length (stripZeros us 6).2 (stripZeros us 6).1
    rw [h] at this
    simp at this
    omega
  · match hw : (stripZeros us 6).2, hp1 with
    | w + 1, _ =>
      rw [show padChars (w + 1) (stripZeros us 6).1 =
          padChars w ((stripZeros us 6).1 / 10) ++ [digChar ((stripZeros us 6).1 % 10)]
        from rfl]
      rw [List.getLast?_concat]
      intro h
      have hmod : (stripZeros us 6).1 % 10 < 10 := Nat.mod_lt _ (by norm_num)
      exact digChar_ne_zeroChar _ hmod hp5 (Option.some.inj h)

/-- C5: a timezone-aware instant is auto-promoted at encode time to the
`@ts` tag form carrying its ISO-8601 UTC string — no fraction on an exact
second (the UTC epoch encodes to exactly the tagged epoch text), trailing
fraction zeros trimmed otherwise — and a Timestamp built from the
nine-digit string `1970-01-01T00:00:00.123456789Z` encodes to exactly that
string under `@ts`, preserving all nine digits. -/
theorem C5_ts_encoding :
    (toFaunaJson (.instant epochInstant)).map Json.render =
      .ok "\x7b\"@ts\":\"1970-01-01T00:00:00Z\"\x7d" ∧
    (toFaunaJson (.time ⟨"1970-01-01T00:00:00.123456789Z"⟩)).map Json.render =
      .ok "\x7b\"@ts\":\"1970-01-01T00:00:00.123456789Z\"\x7d" ∧
    (∀ dt : DateTime, dt.aware = true →
      toFaunaJson (.instant dt) = .ok (.obj [("@ts", .str (isoFormat dt))])) ∧
    (∀ dt : DateTime, dt.microsecond = 0 → fracChars dt.microsecond = []) ∧
    (∀ dt : DateTime, dt.Valid → dt.microsecond ≠ 0 →
      ∃ ds, fracChars dt.microsecond = '.' :: ds ∧ ds ≠ [] ∧
        ds.getLast? ≠ some '0') := by
  refine ⟨rfl, rfl, ?_, ?_, ?_⟩
  · intro dt ha
    simp [toFaunaJson, FaunaTime.ofDatetime, ha]
  · intro dt h0
    simp [fracChars, h0]
  · intro dt hv h0
    exact fracChars_trimmed dt.microsecond hv.2.2.2.2.2.2.2.2.2 h0

/-- Witness for C5 at concrete instants. -/
theorem C5_witness :
    toFaunaJson (.instant ⟨2024, 1, 2, 3, 4, 5, 0, true⟩) =
      .ok (.obj [("@ts", .str (isoFormat ⟨2024, 1, 2, 3, 4, 5, 0, true⟩))]) ∧
    (∃ ds, fracChars (⟨2024, 1, 2, 3, 4, 5, 250000, true⟩ : DateTime).microsecond =
      '.' :: ds ∧ ds ≠ [] ∧ ds.getLast? ≠ some '0') :=
  ⟨C5_ts_encoding.2.2.1 ⟨2024, 1, 2, 3, 4, 5, 0, true⟩ rfl,
   C5_ts_encoding.2.2.2.2 ⟨2024, 1, 2, 3, 4, 5, 250000, true⟩ (by decide) (by decide)⟩

/-- C2: for every completed request the dispatcher inspects the
RequestResult's status code: on 2xx it returns the decoded `resource`
field of the payload and fails with the InvalidResponse condition when the
field is absent or the payload is not a mapping; on an error status it
raises the status-specific variant (NotFound for 404, BadRequest for 400,
Unauthorized for 401, PermissionDenied for 403, UnavailableError for 503,
InternalError for the remaining 5xx, the generic variant otherwise)
carrying the full RequestResult and the decoded error list; and every
completed `_execute` run routes its RequestResult through this
dispatcher. -/
theorem C2_status_dispatch (rr : RequestResult) :
    (200 ≤ rr.status_code → rr.status_code ≤ 299 →
      (∀ fs x, rr.response_content = .obj fs → lookupVal "resource" fs = some x →
        dispatch rr = .ok x) ∧
      (∀ fs, rr.response_content = .obj fs → lookupVal "resource" fs = none →
        dispatch rr = .error ⟨.invalidResponse, none, []⟩) ∧
      ((∀ fs, rr.response_content ≠ .obj fs) →
        dispatch rr = .error ⟨.invalidResponse, none, []⟩)) ∧
    (rr.status_code = 404 →
      dispatch rr = .error ⟨.notFound, some rr, decodeErrors rr.response_content⟩) ∧
    (rr.status_code = 400 →
      dispatch rr = .error ⟨.badRequest, some rr, decodeErrors rr.response_content⟩) ∧
    (rr.status_code = 401 →
      dispatch rr = .error ⟨.unauthorized, some rr, decodeErrors rr.response_content⟩) ∧
    (rr.status_code = 403 →
      dispatch rr = .error ⟨.permissionDenied, some rr, decodeErrors rr.response_content⟩) ∧
    (rr.status_code = 503 →
      dispatch rr = .error ⟨.unavailableError, some rr, decodeErrors rr.response_content⟩) ∧
    (500 ≤ rr.status_code → rr.status_code ≤ 599 → rr.status_code ≠ 503 →
      dispatch rr = .error ⟨.internalError, some rr, decodeErrors rr.response_content⟩) ∧
    (¬(200 ≤ rr.status_code ∧ rr.status_code ≤ 299) →
      rr.status_code ≠ 400 → rr.status_code ≠ 401 → rr.status_code ≠ 403 →
      rr.status_code ≠ 404 → rr.status_code ≠ 503 →
      ¬(500 ≤ rr.status_code ∧ rr.status_code ≤ 599) →
      dispatch rr = .error ⟨.unknownError, some rr, decodeErrors rr.response_content⟩) ∧
    (∀ (c : Client) (action : String) (path : Ref ⊕ String) (data : Option Value)
        (query : Option (List (String × Option String))) (resp : HttpResponse)
        (st et : Nat) (j : Json), parseJsonText resp.text = some j →
      ∃ rr' : RequestResult,
        (execute c action path data query resp st et).result =
          (dispatch rr').mapError DispatchErr.fauna ∧
        rr'.status_code = resp.status_code ∧ rr'.response_content = fromJson j) := by
  refine ⟨?_, ?_, ?_, ?_, ?_, ?_, ?_, ?_, ?_⟩
  · intro h2a h2b
    have hc : 200 ≤ rr.status_code ∧ rr.status_code ≤ 299 := ⟨h2a, h2b⟩
    refine ⟨?_, ?_, ?_⟩
    · intro fs x hfs hx
      simp [dispatch, raise_for_status_code, errorKindForStatus, hc, get_or_invalid, hfs, hx]
    · intro fs hfs hx
      simp [dispatch, raise_for_status_code, errorKindForStatus, hc, get_or_invalid, hfs, hx]
    · intro hno
      cases hrc : rr.response_content
      case obj fs => exact absurd hrc (hno fs)
      all_goals
        simp [dispatch, raise_for_status_code, errorKindForStatus, hc, get_or_invalid, hrc]
  · intro h
    simp [dispatch, raise_for_status_code, errorKindForStatus, h]
  · intro h
    simp [dispatch, raise_for_status_code, errorKindForStatus, h]
  · intro h
    simp [dispatch, raise_for_status_code, errorKindForStatus, h]
  · intro h
    simp [dispatch, raise_for_status_code, errorKindForStatus, h]
  · intro h
    simp [dispatch, raise_for_status_code, errorKindForStatus, h]
  · intro h5a h5b h503
    have hn2 : ¬(200 ≤ rr.status_code ∧ rr.status_code ≤ 299) := by omega
    have h400 : rr.status_code ≠ 400 := by omega
    have h401 : rr.status_code ≠ 401 := by omega
    have h403 : rr.status_code ≠ 403 := by omega
    have h404 : rr.status_code ≠ 404 := by omega
    have h5 : 500 ≤ rr.status_code ∧ rr.status_code ≤ 599 := ⟨h5a, h5b⟩
    simp [dispatch, raise_for_status_code, errorKindForStatus, hn2, h400, h401, h403,
      h404, h503, h5]
  · intro hn2 h400 h401 h403 h404 h503 hn5
    simp [dispatch, raise_for_status_code, errorKindForStatus, hn2, h400, h401, h403,
      h404, h503, hn5]
  · intro c action path data query resp st et j hj
    simp only [execute, hj]
    exact ⟨_, rfl, rfl, rfl⟩

/-- Concrete 404 result with an errors array, for the C2 witness. -/
def rr404 : RequestResult :=
  ⟨"GET", "ping", none, none,
   .obj [("errors", .arr [.obj [("code", .str "not found"),
     ("description", .str "missing"), ("position", .arr [])]])],
   404, [], 0, 0⟩

/-- Concrete 200 result whose payload lacks the resource field, for the C2
witness. -/
def rr200bad : RequestResult :=
  ⟨"GET", "ping", none, none, .obj [("x", .int 1)], 200, [], 0, 0⟩

/-- Witness for C2: a 404 with an errors array raises NotFound carrying
the result, and a 2xx payload missing `resource` fails InvalidResponse. -/
theorem C2_witness :
    dispatch rr404 = .error ⟨.notFound, some rr404, decodeErrors rr404.response_content⟩ ∧
      dispatch rr200bad = .error ⟨.invalidResponse, none, []⟩ :=
  ⟨(C2_status_dispatch rr404).2.1 rfl,
   ((C2_status_dispatch rr200bad).1 (by decide) (by decide)).2.1 [("x", .int 1)] rfl rfl⟩

/-- C9: for every request issued with a query-parameter mapping, the pairs
whose value is None are removed before the request is sent (a pair is sent
exactly when its value was present); in particular `ping()` with
`scope=None` and `timeout=None` sends neither URL parameter. -/
theorem C9_none_params_removed (c : Client) (action : String) (path : Ref ⊕ String)
    (data : Option Value) (q : List (String × Option String))
    (resp : HttpResponse) (st et : Nat) :
    (∀ k v, (k, v) ∈ (execute c action path data (some q) resp st et).sent.params ↔
      (k, some v) ∈ q) ∧
    (Client.ping c none none resp st et).sent.params = [] := by
  have hsent : ∀ q' : Option (List (String × Option String)),
      (execute c action path data q' resp st et).sent.params =
        (q'.map (fun q => q.filterMap (fun kv => kv.2.map (fun v => (kv.1, v))))).getD [] := by
    intro q'
    cases hp : parseJsonText resp.text <;> simp [execute, hp]
  constructor
  · intro k v
    rw [hsent (some q)]
    simp only [Option.map_some', Option.getD_some, List.mem_filterMap]
    constructor
    · rintro ⟨⟨k', ov⟩, hmem, hf⟩
      obtain ⟨w, hov, hkv⟩ := Option.map_eq_some'.mp hf
      obtain ⟨rfl, rfl⟩ := Prod.mk.injEq _ _ _ _ |>.mp hkv
      subst hov
      exact hmem
    · intro hmem
      exact ⟨(k, some v), hmem, rfl⟩
  · cases hp : parseJsonText resp.text <;>
      simp [Client.ping, Client.get, execute, hp]

/-- Witness for C9 at a concrete ping call. -/
theorem C9_witness :
    (Client.ping ⟨true⟩ none none ⟨"\x7b\"resource\":1\x7d", 200, []⟩ 0 0).sent.params =
      [] :=
  (C9_none_params_removed ⟨true⟩ "GET" (.inr "ping") none []
    ⟨"\x7b\"resource\":1\x7d", 200, []⟩ 0 0).2

/-- C10: when the client was constructed with an observer, every completed
request invokes the observer exactly once with the RequestResult, and that
invocation precedes the outcome — the status error raised or the resource
value returned — which is the dispatch of that same RequestResult. -/
theorem C10_observer_before_outcome (c : Client) (action : String) (path : Ref ⊕ String)
    (data : Option Value) (query : Option (List (String × Option String)))
    (resp : HttpResponse) (st et : Nat) (j : Json)
    (hobs : c.observer = true) (hparse : parseJsonText resp.text = some j) :
    ∃ rr : RequestResult,
      (execute c action path data query resp st et).events =
        [Event.observerCall rr,
          match dispatch rr with
          | .ok v => Event.returned v
          | .error e => Event.raised e] ∧
      (execute c action path data query resp st et).result =
        (dispatch rr).mapError DispatchErr.fauna := by
  simp only [execute, hparse, hobs, if_true, List.cons_append, List.nil_append]
  exact ⟨_, rfl, rfl⟩

/-- Witness for C10 at a concrete observed request. -/
theorem C10_witness :
    ∃ rr : RequestResult,
      (execute ⟨true⟩ "GET" (.inr "ping") none none
          ⟨"\x7b\"resource\":1\x7d", 200, []⟩ 0 0).events =
        [Event.observerCall rr,
          match dispatch rr with
          | .ok v => Event.returned v
          | .error e => Event.raised e] ∧
      (execute ⟨true⟩ "GET" (.inr "ping") none none
          ⟨"\x7b\"resource\":1\x7d", 200, []⟩ 0 0).result =
        (dispatch rr).mapError DispatchErr.fauna :=
  C10_observer_before_outcome ⟨true⟩ "GET" (.inr "ping") none none
    ⟨"\x7b\"resource\":1\x7d", 200, []⟩ 0 0 (.obj [("resource", .num 1)]) rfl rfl

end Fauna
